import Mathlib

/-!
Verification of the compilation-and-embedding service: the Transform
Pipeline (`typescript_compiler.rs`) and the Assembly Pipeline
(`wasm_compiler.rs`), both organised as a content-fingerprinted memoizing
cache around a delegated front end.

Modelling conventions:
* A Rust `&str` / `Vec<u8>` is a `List Byte` with `Byte := Fin 256`
  (the UTF-8 bytes of the string).
* Machine `u64` arithmetic is `Nat` with explicit `% 2 ^ 64`.
* The external front ends (the `oxc` crates for the Transform Pipeline and
  `wat::parse_str` for the Assembly Pipeline) are out of scope per the spec
  ("treated as external collaborators") and are passed in as parameters.
* The process-global `RwLock<HashMap<u64, _>>` caches are modelled as
  explicit association-list states threaded through the functions; the
  lock itself is invisible to the sequential semantics.
* Log output (`log::info!`, `eprintln!`) has no effect on results and is
  dropped.
-/

/-- A byte, the element of Rust byte strings and binaries. -/
abbrev Byte := Fin 256

/-- Truncation to 64 bits, the behaviour of Rust `u64` wrapping arithmetic. -/
def u64 (n : Nat) : Nat := n % 2 ^ 64

/-- 64-bit left rotation on values below `2 ^ 64`. -/
def rotl (x b : Nat) : Nat := u64 (x <<< b) ||| (x >>> (64 - b))

/-- The four 64-bit state variables of the SipHash mixers. -/
structure SipState where
  v0 : Nat
  v1 : Nat
  v2 : Nat
  v3 : Nat

/-- One SIPROUND, as in the Rust standard library's `sip.rs`. -/
def sipRound (s : SipState) : SipState :=
  let v0 := u64 (s.v0 + s.v1)
  let v1 := rotl s.v1 13
  let v1 := v1 ^^^ v0
  let v0 := rotl v0 32
  let v2 := u64 (s.v2 + s.v3)
  let v3 := rotl s.v3 16
  let v3 := v3 ^^^ v2
  let v0 := u64 (v0 + v3)
  let v3 := rotl v3 21
  let v3 := v3 ^^^ v0
  let v2 := u64 (v2 + v1)
  let v1 := rotl v1 32
  let v1 := v1 ^^^ v2
  ⟨v0, v1, v2, v3⟩

/-- Compression of one message word: SipHash-1-3 runs a single round per word. -/
def sipCompress (s : SipState) (m : Nat) : SipState :=
  let s1 := sipRound { s with v3 := s.v3 ^^^ m }
  { s1 with v0 := s1.v0 ^^^ m }

/-- Initial state of `DefaultHasher`: SipHash-1-3 with both keys zero, so the
state variables are exactly the SipHash constants. -/
def sipInit : SipState :=
  ⟨0x736f6d6570736575, 0x646f72616e646f6d, 0x6c7967656e657261, 0x7465646279746573⟩

/-- Little-endian word value of a byte list (first byte least significant). -/
def leWord (bs : List Nat) : Nat := bs.foldr (fun b acc => b + 256 * acc) 0

/-- Consume all complete 8-byte message words, returning the state and the
remaining (fewer than eight) tail bytes. -/
def sipBlocks (s : SipState) : List Nat → SipState × List Nat
  | b0 :: b1 :: b2 :: b3 :: b4 :: b5 :: b6 :: b7 :: rest =>
      sipBlocks (sipCompress s (leWord [b0, b1, b2, b3, b4, b5, b6, b7])) rest
  | rest => (s, rest)

/-- XOR of the four state variables, truncated to the `u64` result. -/
def sipFinal (s : SipState) : Nat := (s.v0 ^^^ s.v1 ^^^ s.v2 ^^^ s.v3) % 2 ^ 64

/-- SipHash finalisation: the last word carries the tail bytes together with
the total length modulo 256 in the top byte, then `v2` is XORed with `0xff`
and three rounds are run. -/
def sipFinish (s : SipState) (tail : List Nat) (len : Nat) : Nat :=
  let b := u64 ((len % 256) <<< 56 + leWord tail)
  let s1 := sipCompress s b
  let s2 := { s1 with v2 := s1.v2 ^^^ 0xff }
  sipFinal (sipRound (sipRound (sipRound s2)))

/-- `calculate_hash`: `DefaultHasher::new()` (SipHash-1-3, zero keys) applied
to a `&str`, which per `impl Hash for str` feeds the UTF-8 bytes followed by
a single `0xff` byte.  Identical in both pipeline files. -/
def calculate_hash (source : List Byte) : Nat :=
  let msg := source.map Fin.val ++ [0xff]
  let p := sipBlocks sipInit msg
  sipFinish p.1 p.2 msg.length

/-- `HashMap` lookup on the association-list model, keyed by the `u64`
fingerprint. -/
def mapLookup {α : Type} : List (Nat × α) → Nat → Option α
  | [], _ => none
  | (k', v) :: rest, k => if k' = k then some v else mapLookup rest k

/-- `HashMap::insert`: replace the entry when the key is present, otherwise
add a new entry. -/
def mapInsert {α : Type} (k : Nat) (v : α) (m : List (Nat × α)) : List (Nat × α) :=
  if (mapLookup m k).isSome then
    m.map (fun p => if p.1 = k then (k, v) else p)
  else
    (k, v) :: m

/-- The store step shared by both pipelines:
`if cache.len() > cap { cache.clear(); } cache.insert(cache_key, value)`.
The Transform Pipeline instantiates `cap = 1000`, the Assembly Pipeline
`cap = 100`. -/
def cacheStore {α : Type} (cap : Nat) (m : List (Nat × α)) (k : Nat) (v : α) :
    List (Nat × α) :=
  mapInsert k v (if cap < m.length then [] else m)

/-- `CompileError` of `wasm_compiler.rs`: the Assembly Pipeline has only the
parse-error variant. -/
inductive WasmCompileError where
  | ParseError : List Char → WasmCompileError
deriving DecidableEq

/-- The Assembly Pipeline cache: fingerprint to compiled binary. -/
abbrev WasmCache := List (Nat × List Byte)

/-- The four magic bytes `\0asm` that open a binary WebAssembly module. -/
def wasmMagic : List Byte := [0, 97, 115, 109]

/-- `inject_gc_accessors`: the structural-accessor injection stage.  The
function logs advisory messages and returns `Ok(wasm_binary.to_vec())`. -/
def inject_gc_accessors (wasm_binary : List Byte) : Except WasmCompileError (List Byte) :=
  .ok wasm_binary

/-- The text branch of `compile_wat_internal`: delegate to the external
assembler (`wat::parse_str`), wrap any diagnostic as
`ParseError(format!("in {}: {}", filename, e))`, and pass a successful
binary through the accessor-injection stage. -/
def assembleText (assemble : List Byte → Except (List Char) (List Byte))
    (source : List Byte) (filename : List Char) : Except WasmCompileError (List Byte) :=
  match assemble source with
  | .error e => .error (.ParseError ("in ".toList ++ filename ++ ": ".toList ++ e))
  | .ok bytes => inject_gc_accessors bytes

/-- `compile_wat_internal`: binary-format detection
(`source_bytes.len() >= 4 && &source_bytes[0..4] == b"\0asm"`) selects the
pass-through, otherwise the source is assembled as text; both branches feed
the accessor-injection stage. -/
def compile_wat_internal (assemble : List Byte → Except (List Char) (List Byte))
    (source : List Byte) (filename : List Char) : Except WasmCompileError (List Byte) :=
  if 4 ≤ source.length ∧ source.take 4 = wasmMagic then
    inject_gc_accessors source
  else
    assembleText assemble source filename

/-- Uppercase hexadecimal digit characters, as produced by `format!("{:02X}")`. -/
def hexDigitChar (n : Nat) : Char := "0123456789ABCDEF".toList.getD n '0'

/-- One byte rendered as `format!("0x{:02X}", b)`: always four characters. -/
def hexLit (b : Byte) : List Char :=
  ['0', 'x', hexDigitChar (b.val / 16), hexDigitChar (b.val % 16)]

/-- `wasm_binary.iter().map(|b| format!("0x{:02X}", b)).collect::<Vec<_>>().join(", ")`:
the inline byte-array literal of the embedding snippet. -/
def renderBytes : List Byte → List Char
  | [] => []
  | [b] => hexLit b
  | b :: rest => hexLit b ++ ',' :: ' ' :: renderBytes rest

/-- The generated JavaScript wrapper text before the byte-array literal
(from the format template in `compile_wat_to_js`). -/
def wasmJsHead : List Char :=
  ("\n(function() \x7b\n    try \x7b\n        console.log(\x27WASM: Starting module load\x27);\n\n        // WASM module as direct byte array (most reliable method)\n        const wasmBytes = new Uint8Array([").toList

/-- The generated JavaScript wrapper text after the byte-array literal
(from the format template in `compile_wat_to_js`). -/
def wasmJsTail : List Char :=
  ("]);\n\n        console.log(\x27WASM: Instantiating module (\x27 + wasmBytes.length + \x27 bytes)...\x27);\n\n        // Instantiate directly from byte array\n        WebAssembly.instantiate(wasmBytes)\n            .then(function(result) \x7b\n                console.log(\x27WASM: Module instantiated successfully\x27);\n\n                // Export all WASM functions to window\n                if (result.instance && result.instance.exports) \x7b\n                    for (const name in result.instance.exports) \x7b\n                        const func = result.instance.exports[name];\n                        if (typeof func === \x27function\x27) \x7b\n                            // Export functions directly - SpiderMonkey now handles GC object property access natively\n                            window[name] = func;\n                            console.log(\x27WASM: Exported function \x27 + name);\n                        \x7d\n                    \x7d\n\n"
   ++ "                    // Helper function to display GC struct contents\n                    window.WasmGcStructDisplay = function(structObj, structName) \x7b\n                        if (!structObj || typeof structObj !== \x27object\x27) \x7b\n                            return String(structObj);\n                        \x7d\n\n                        structName = structName || \x27box\x27;\n                        let fields = [];\n\n                        // Try common field names\n                        const commonFields = [\x27val\x27, \x27value\x27, \x27data\x27, \x27x\x27, \x27y\x27, \x27z\x27, \x27width\x27, \x27height\x27];\n                        for (const fieldName of commonFields) \x7b\n                            if (typeof WasmGcStructGet !== \x27undefined\x27) \x7b\n                                try \x7b\n                                    const fieldValue = WasmGcStructGet(structObj, fieldName);\n                                    if (fieldValue !== undefined) \x7b\n                                        fields.push(fieldName + \x27=\x27 + fieldValue);\n                                    \x7d\n                                \x7d catch (e) \x7b\n                                    // Field doesn\x27t exist, skip\n                                \x7d\n                            \x7d\n                        \x7d\n\n"
   ++ "                        if (fields.length > 0) \x7b\n                            return structName + \x27\x7b\x27 + fields.join(\x27, \x27) + \x27\x7d\x27;\n                        \x7d else \x7b\n                            return structName + \x27\x7b\x7d\x27;\n                        \x7d\n                    \x7d;\n\n                    // Create GC struct field accessors\n                    // For WASM GC structs, we need getter functions that call struct.get\n                    // These are typically exported as \x27get_field_X\x27 functions by WASM\n                    window.WasmGcStructGet = function(structObj, fieldIndex) \x7b\n                        // Attempt to extract field value from GC struct\n                        // Look for exported getter functions following common patterns\n                        const getterName = \x27get_\x27 + fieldIndex;\n                        if (window._wasmExports && window._wasmExports[getterName]) \x7b\n                            try \x7b\n                                return window._wasmExports[getterName](structObj);\n                            \x7d catch (e) \x7b\n                                console.warn(\x27WasmGcStructGet: Getter\x27, getterName, \x27failed:\x27, e);\n                            \x7d\n                        \x7d\n\n"
   ++ "                        // Fallback: try numeric field access patterns\n                        const fieldGetter = \x27struct_get_\x27 + fieldIndex;\n                        if (window._wasmExports && window._wasmExports[fieldGetter]) \x7b\n                            try \x7b\n                                return window._wasmExports[fieldGetter](structObj);\n                            \x7d catch (e) \x7b\n                                console.warn(\x27WasmGcStructGet: Getter\x27, fieldGetter, \x27failed:\x27, e);\n                            \x7d\n                        \x7d\n\n                        // Try property access as last resort (for externref wrapping)\n                        if (structObj && typeof structObj === \x27object\x27) \x7b\n                            if (structObj[fieldIndex] !== undefined) \x7b\n                                return structObj[fieldIndex];\n                            \x7d\n                            const fieldName = \x27field\x27 + fieldIndex;\n                            if (structObj[fieldName] !== undefined) \x7b\n                                return structObj[fieldName];\n                            \x7d\n                        \x7d\n\n"
   ++ "                        console.warn(\x27WasmGcStructGet: Unable to access field\x27, fieldIndex, \x27on\x27, structObj);\n                        return undefined;\n                    \x7d;\n\n                    // Helper to list available getter functions\n                    window.WasmListGetters = function() \x7b\n                        const getters = [];\n                        for (const name in window._wasmExports) \x7b\n                            if (name.startsWith(\x27get_\x27) || name.startsWith(\x27struct_get_\x27)) \x7b\n                                getters.push(name);\n                            \x7d\n                        \x7d\n                        return getters;\n                    \x7d;\n\n                    console.log(\x27WASM: GC struct accessors installed\x27);\n                    console.log(\x27WASM: Available getters:\x27, window.WasmListGetters());\n                \x7d\n\n                console.log(\x27WASM module loaded successfully\x27);\n            \x7d)\n            .catch(function(e) \x7b\n                console.error(\x27WASM instantiation error:\x27, e);\n            \x7d);\n\n    \x7d catch (e) \x7b\n        console.error(\x27WASM error:\x27, e);\n    \x7d\n\x7d)();\n").toList

/-- The embedding snippet generated from a binary: the format template with
the byte-array literal spliced into `new Uint8Array([...])`. -/
def wasmJsCode (binary : List Byte) : List Char :=
  wasmJsHead ++ renderBytes binary ++ wasmJsTail

/-- `compile_wat_to_js` with the cache state made explicit: look up the
fingerprint of `source`; on a miss, run `compile_wat_internal` and store a
successful binary with the capacity-100 overflow policy; errors are
returned without touching the cache; the embedding snippet is always
generated afresh from the binary in hand. -/
def compile_wat_to_js (assemble : List Byte → Except (List Char) (List Byte))
    (cache : WasmCache) (source : List Byte) (filename : List Char) :
    Except WasmCompileError (List Char) × WasmCache :=
  let cache_key := calculate_hash source
  match mapLookup cache cache_key with
  | some binary => (.ok (wasmJsCode binary), cache)
  | none =>
    match compile_wat_internal assemble source filename with
    | .error e => (.error e, cache)
    | .ok binary => (.ok (wasmJsCode binary), cacheStore 100 cache cache_key binary)

/-- `clear_cache` of the Assembly Pipeline: the cache state after
`get_cache().write().clear()`. -/
def wasm_clear_cache : WasmCache := []

/-- The Assembly Pipeline with the cache disabled: every lookup a miss and
nothing stored — the pure miss path of `compile_wat_to_js`. -/
def compile_wat_nocache (assemble : List Byte → Except (List Char) (List Byte))
    (source : List Byte) (filename : List Char) : Except WasmCompileError (List Char) :=
  match compile_wat_internal assemble source filename with
  | .error e => .error e
  | .ok binary => .ok (wasmJsCode binary)

/-- A cache state producible by a sequence of earlier `compile_wat_to_js`
calls starting from the empty cache. -/
def wasmReachable (assemble : List Byte → Except (List Char) (List Byte))
    (cache : WasmCache) : Prop :=
  ∃ calls : List (List Byte × List Char),
    cache = calls.foldl (fun c p => (compile_wat_to_js assemble c p.1 p.2).2) []

/-- An administrative operation on the Assembly Pipeline: a compile call or
an explicit `clear_cache`. -/
inductive WasmOp where
  | compileOp : List Byte → List Char → WasmOp
  | clearOp : WasmOp

/-- Effect of one Assembly Pipeline operation on the cache state. -/
def wasmStep (assemble : List Byte → Except (List Char) (List Byte))
    (cache : WasmCache) : WasmOp → WasmCache
  | .compileOp s l => (compile_wat_to_js assemble cache s l).2
  | .clearOp => wasm_clear_cache

/-- Cache state after a whole operation sequence, from the empty cache. -/
def wasmRun (assemble : List Byte → Except (List Char) (List Byte))
    (ops : List WasmOp) : WasmCache :=
  ops.foldl (wasmStep assemble) []

/-- `CompileError` of `typescript_compiler.rs`: parse, transform and codegen
variants, each carrying the semicolon-joined diagnostic text. -/
inductive TsCompileError where
  | ParseError : List Char → TsCompileError
  | TransformError : List Char → TsCompileError
  | CodegenError : List Char → TsCompileError
deriving DecidableEq

/-- The Transform Pipeline cache: fingerprint to compiled JavaScript text. -/
abbrev TsCache := List (Nat × List Char)

/-- The external Oxc front end consumed by `compile_typescript_internal`,
bundled as the spec's "parse+lower source → target text" capability.  `ST`
is the opaque `SourceType`, `Prog` the parsed program, `Scope` the scoping
data built by the semantic pass.  `sourceTypeFromPath` is
`SourceType::from_path` (`none` when the extension is unrecognised),
`defaultTsType` is `SourceType::default().with_typescript(true)`, `parse`
returns the displayed parse diagnostics together with the program,
`semanticScoping` is `SemanticBuilder::new().build(..).semantic.into_scoping()`,
`transform` receives the filename path exactly as `Transformer::new` does,
and `codegen` renders the program. -/
structure Oxc (ST Prog Scope : Type) where
  sourceTypeFromPath : List Char → Option ST
  defaultTsType : ST
  parse : ST → List Byte → List (List Char) × Prog
  semanticScoping : Prog → Scope
  transform : List Char → Scope → Prog → List (List Char) × Prog
  codegen : Prog → List Char

/-- `error_msgs.join("; ")`: diagnostics joined with a semicolon separator. -/
def joinSemi (msgs : List (List Char)) : List Char :=
  List.intercalate "; ".toList msgs

/-- `compile_typescript_internal`: determine the source type from the
filename with the TypeScript fallback, parse, reject on parse diagnostics,
build scoping, transform (the filename is passed to the transformer),
reject on transform diagnostics, then generate code. -/
def compile_typescript_internal {ST Prog Scope : Type} (oxc : Oxc ST Prog Scope)
    (source : List Byte) (filename : List Char) : Except TsCompileError (List Char) :=
  let source_type := (oxc.sourceTypeFromPath filename).getD oxc.defaultTsType
  let parser_ret := oxc.parse source_type source
  if parser_ret.1 ≠ [] then
    .error (.ParseError (joinSemi parser_ret.1))
  else
    let scoping := oxc.semanticScoping parser_ret.2
    let transform_result := oxc.transform filename scoping parser_ret.2
    if transform_result.1 ≠ [] then
      .error (.TransformError (joinSemi transform_result.1))
    else
      .ok (oxc.codegen transform_result.2)

/-- `compile_typescript_to_js` with the cache state made explicit: look up
the fingerprint of `source` (the filename never enters the key); on a hit
return the stored text; on a miss compile, store a success with the
capacity-1000 overflow policy, and return errors without touching the
cache. -/
def compile_typescript_to_js {ST Prog Scope : Type} (oxc : Oxc ST Prog Scope)
    (cache : TsCache) (source : List Byte) (filename : List Char) :
    Except TsCompileError (List Char) × TsCache :=
  let cache_key := calculate_hash source
  match mapLookup cache cache_key with
  | some cached => (.ok cached, cache)
  | none =>
    match compile_typescript_internal oxc source filename with
    | .error e => (.error e, cache)
    | .ok compiled => (.ok compiled, cacheStore 1000 cache cache_key compiled)

/-- `clear_cache` of the Transform Pipeline. -/
def ts_clear_cache : TsCache := []

/-- The Transform Pipeline with the cache disabled: the pure miss path. -/
def compile_typescript_nocache {ST Prog Scope : Type} (oxc : Oxc ST Prog Scope)
    (source : List Byte) (filename : List Char) : Except TsCompileError (List Char) :=
  match compile_typescript_internal oxc source filename with
  | .error e => .error e
  | .ok compiled => .ok compiled

/-- A cache state producible by earlier `compile_typescript_to_js` calls. -/
def tsReachable {ST Prog Scope : Type} (oxc : Oxc ST Prog Scope) (cache : TsCache) : Prop :=
  ∃ calls : List (List Byte × List Char),
    cache = calls.foldl (fun c p => (compile_typescript_to_js oxc c p.1 p.2).2) []

/-- An administrative operation on the Transform Pipeline. -/
inductive TsOp where
  | compileOp : List Byte → List Char → TsOp
  | clearOp : TsOp

/-- Effect of one Transform Pipeline operation on the cache state. -/
def tsStep {ST Prog Scope : Type} (oxc : Oxc ST Prog Scope) (cache : TsCache) : TsOp → TsCache
  | .compileOp s l => (compile_typescript_to_js oxc cache s l).2
  | .clearOp => ts_clear_cache

/-- Cache state after a whole operation sequence, from the empty cache. -/
def tsRun {ST Prog Scope : Type} (oxc : Oxc ST Prog Scope) (ops : List TsOp) : TsCache :=
  ops.foldl (tsStep oxc) []

/-- Decode one uppercase hexadecimal digit character. -/
def decodeHexDigit (c : Char) : Option Nat :=
  if c = '0' then some 0 else if c = '1' then some 1
  else if c = '2' then some 2 else if c = '3' then some 3
  else if c = '4' then some 4 else if c = '5' then some 5
  else if c = '6' then some 6 else if c = '7' then some 7
  else if c = '8' then some 8 else if c = '9' then some 9
  else if c = 'A' then some 10 else if c = 'B' then some 11
  else if c = 'C' then some 12 else if c = 'D' then some 13
  else if c = 'E' then some 14 else if c = 'F' then some 15
  else none

/-- Parse a comma-joined list of `0xHH` literals back into the byte list it
denotes: the reading direction of the byte-array literal emitted into the
embedding snippet. -/
def decodeBytes : List Char → Option (List Byte)
  | [] => some []
  | c0 :: c1 :: h :: l :: rest =>
    if c0 = '0' ∧ c1 = 'x' then
      match decodeHexDigit h, decodeHexDigit l with
      | some hv, some lv =>
        let b : Byte := ⟨(16 * hv + lv) % 256, Nat.mod_lt _ (by norm_num)⟩
        match rest with
        | [] => some [b]
        | c2 :: c3 :: rest2 =>
          if c2 = ',' ∧ c3 = ' ' then (decodeBytes rest2).map (fun bs => b :: bs)
          else none
        | _ => none
      | _, _ => none
    else none
  | _ => none

/-- Modelled from the spec: a miniature instance of the external
parse+lower capability (the real one is the out-of-scope `oxc` crate
family).  Dialects are `true` (typed script) and `false` (plain script);
the typed dialect accepts everything, the plain dialect rejects any source
containing a `:` annotation byte (58); lowering strips the annotation
bytes; codegen renders the remaining bytes as characters.  The dialect is
derived from the label's extension, `ts` typed, `js` plain, otherwise
unrecognised, as §4.2 step 2 describes. -/
def refOxc : Oxc Bool (List Byte) Unit where
  sourceTypeFromPath := fun l =>
    if "ts".toList.isSuffixOf l then some true
    else if "js".toList.isSuffixOf l then some false
    else none
  defaultTsType := true
  parse := fun typed src =>
    if typed then ([], src)
    else if (58 : Byte) ∈ src then (["unexpected type annotation".toList], src)
    else ([], src)
  semanticScoping := fun _ => ()
  transform := fun _ _ prog => ([], prog.filter (fun b => b ≠ 58))
  codegen := fun prog => prog.map (fun b => Char.ofNat b.val)

/-- An external assembler that rejects every input, for exercising the
error paths of the Assembly Pipeline. -/
def refAssembleFail : List Byte → Except (List Char) (List Byte) :=
  fun _ => .error "bad syntax".toList

/-- An external assembler that accepts every input with a fixed binary. -/
def refAssembleOk : List Byte → Except (List Char) (List Byte) :=
  fun _ => .ok [0]

/-- The final SipHash value is a `u64`. -/
lemma sipFinal_lt (s : SipState) : sipFinal s < 2 ^ 64 :=
  Nat.mod_lt _ (by norm_num)

/-- The fingerprint is a 64-bit value. -/
lemma calculate_hash_lt (source : List Byte) : calculate_hash source < 2 ^ 64 := by
  unfold calculate_hash sipFinish
  exact sipFinal_lt _

/-- Inserting a key that is absent prepends the new entry. -/
lemma mapInsert_of_lookup_none {α : Type} (k : Nat) (v : α) (m : List (Nat × α))
    (h : mapLookup m k = none) : mapInsert k v m = (k, v) :: m := by
  unfold mapInsert
  rw [h]
  rfl

/-- After an insert, looking up the inserted key finds the new value. -/
lemma mapLookup_mapInsert_self {α : Type} (k : Nat) (v : α) (m : List (Nat × α)) :
    mapLookup (mapInsert k v m) k = some v := by
  unfold mapInsert
  by_cases h : (mapLookup m k).isSome
  · rw [if_pos h]
    induction m with
    | nil => simp [mapLookup] at h
    | cons p rest ih =>
      obtain ⟨k', v'⟩ := p
      by_cases hk : k' = k
      · subst hk
        rw [List.map_cons,
          show (if (k', v').1 = k' then (k', v) else (k', v')) = (k', v) from if_pos rfl]
        simp [mapLookup]
      · rw [List.map_cons,
          show (if (k', v').1 = k then (k, v) else (k', v')) = (k', v') from if_neg hk]
        simp only [mapLookup]
        rw [if_neg hk]
        apply ih
        simpa [mapLookup, hk] using h
  · rw [if_neg h]
    simp [mapLookup]

/-- An insert grows the map by at most one entry. -/
lemma mapInsert_length_le {α : Type} (k : Nat) (v : α) (m : List (Nat × α)) :
    (mapInsert k v m).length ≤ m.length + 1 := by
  unfold mapInsert
  by_cases h : (mapLookup m k).isSome
  · rw [if_pos h]
    simp
  · rw [if_neg h]
    simp

/-- The overflow-then-insert store never leaves more than `cap + 1` entries,
whatever the prior state. -/
lemma cacheStore_length_le {α : Type} (cap : Nat) (m : List (Nat × α)) (k : Nat) (v : α) :
    (cacheStore cap m k v).length ≤ cap + 1 := by
  unfold cacheStore
  by_cases h : cap < m.length
  · rw [if_pos h]
    have := mapInsert_length_le k v ([] : List (Nat × α))
    simp at this
    omega
  · rw [if_neg h]
    have := mapInsert_length_le k v m
    omega

/-- Storing pairwise-distinct fresh keys whose total stays within `cap + 1`
never triggers the wholesale clear: each key becomes one entry. -/
lemma foldStore_fresh {α : Type} (cap : Nat) (vf : Nat → α) :
    ∀ (ks : List Nat) (m : List (Nat × α)), ks.Nodup →
      (∀ k ∈ ks, mapLookup m k = none) → m.length + ks.length ≤ cap + 1 →
      ((ks.foldl (fun acc k => cacheStore cap acc k (vf k)) m).length = m.length + ks.length)
  | [], m, _, _, _ => by simp
  | k :: rest, m, hnd, hfresh, hlen => by
    have hmlen : ¬ cap < m.length := by
      simp only [List.length_cons] at hlen
      omega
    have hk : mapLookup m k = none := hfresh k (by simp)
    have hstep : cacheStore cap m k (vf k) = (k, vf k) :: m := by
      unfold cacheStore
      rw [if_neg hmlen]
      exact mapInsert_of_lookup_none k (vf k) m hk
    have hnd' : rest.Nodup := (List.nodup_cons.mp hnd).2
    have hknotin : k ∉ rest := (List.nodup_cons.mp hnd).1
    have hfresh' : ∀ k' ∈ rest, mapLookup ((k, vf k) :: m) k' = none := by
      intro k' hk'
      have hne : k ≠ k' := fun he => hknotin (he ▸ hk')
      simp only [mapLookup]
      rw [if_neg hne]
      exact hfresh k' (List.mem_cons_of_mem _ hk')
    have hrec := foldStore_fresh cap vf rest ((k, vf k) :: m) hnd' hfresh'
      (by simp only [List.length_cons] at hlen ⊢; omega)
    rw [List.foldl_cons, hstep, hrec]
    simp only [List.length_cons]
    omega

/-- Every decoded hex digit of an in-range value round-trips. -/
lemma decodeHexDigit_hexDigitChar (n : Nat) (h : n < 16) :
    decodeHexDigit (hexDigitChar n) = some n := by
  interval_cases n <;> rfl

/-- The byte-array literal decodes back to exactly the bytes it renders:
each byte appears, in order, as one hexadecimal literal. -/
lemma decodeBytes_renderBytes : ∀ bs : List Byte, decodeBytes (renderBytes bs) = some bs
  | [] => rfl
  | [b] => by
    have hdiv : b.val / 16 < 16 := by omega
    have hmod : b.val % 16 < 16 := Nat.mod_lt _ (by norm_num)
    show decodeBytes (hexLit b) = some [b]
    unfold hexLit decodeBytes
    rw [if_pos (by decide), decodeHexDigit_hexDigitChar _ hdiv, decodeHexDigit_hexDigitChar _ hmod]
    simp only [Option.some.injEq, List.cons_eq_cons, and_true, Fin.ext_iff]
    omega
  | b :: r :: rest => by
    have hdiv : b.val / 16 < 16 := by omega
    have hmod : b.val % 16 < 16 := Nat.mod_lt _ (by norm_num)
    have ih := decodeBytes_renderBytes (r :: rest)
    show decodeBytes (hexLit b ++ ',' :: ' ' :: renderBytes (r :: rest)) = some (b :: r :: rest)
    unfold hexLit
    simp only [List.cons_append, List.nil_append]
    unfold decodeBytes
    rw [if_pos (by decide), decodeHexDigit_hexDigitChar _ hdiv, decodeHexDigit_hexDigitChar _ hmod]
    have hrn : renderBytes (r :: rest) ≠ [] := by
      cases rest <;> simp [renderBytes, hexLit]
    cases hr : renderBytes (r :: rest) with
    | nil => exact absurd hr hrn
    | cons c cs =>
      rw [hr] at ih
      simp only
      rw [if_pos (by decide), ih, Option.map_some']
      refine congrArg some (List.cons_eq_cons.mpr ⟨Fin.ext ?_, rfl⟩)
      show (16 * (b.val / 16) + b.val % 16) % 256 = b.val
      omega

/-- The byte-array rendering is injective. -/
lemma renderBytes_injective : Function.Injective renderBytes := by
  intro a b h
  have ha := decodeBytes_renderBytes a
  rw [h, decodeBytes_renderBytes b] at ha
  exact (Option.some.injEq _ _).mp ha.symm

/-- The embedding snippet determines the binary it was generated from. -/
lemma wasmJsCode_injective : Function.Injective wasmJsCode := by
  intro a b h
  unfold wasmJsCode at h
  have h1 : wasmJsHead ++ renderBytes a = wasmJsHead ++ renderBytes b := by
    have := List.append_cancel_right (by simpa [List.append_assoc] using h :
      (wasmJsHead ++ renderBytes a) ++ wasmJsTail = (wasmJsHead ++ renderBytes b) ++ wasmJsTail)
    exact this
  exact renderBytes_injective (List.append_cancel_left h1)

/-- Two distinct sources sharing a fingerprint exist among the
length-14 binary-magic inputs: 2^70 ASCII suffixes feed a 64-bit digest. -/
lemma hash_collision_on_magic :
    ∃ s1 s2 : List Byte, s1 ≠ s2 ∧ s1.take 4 = wasmMagic ∧ s2.take 4 = wasmMagic ∧
      s1.length = 14 ∧ s2.length = 14 ∧ calculate_hash s1 = calculate_hash s2 := by
  classical
  let emb : (Fin 10 → Fin 128) → List Byte := fun f =>
    wasmMagic ++ List.ofFn fun i => (Fin.castLE (by norm_num) (f i) : Byte)
  let F : (Fin 10 → Fin 128) → Fin (2 ^ 64) := fun f =>
    ⟨calculate_hash (emb f), calculate_hash_lt _⟩
  have hcard : Fintype.card (Fin (2 ^ 64)) < Fintype.card (Fin 10 → Fin 128) := by
    rw [Fintype.card_fun, Fintype.card_fin, Fintype.card_fin, Fintype.card_fin]
    norm_num
  obtain ⟨f, g, hne, heq⟩ := Fintype.exists_ne_map_eq_of_card_lt F hcard
  refine ⟨emb f, emb g, ?_, ?_, ?_, ?_, ?_, ?_⟩
  · intro h
    apply hne
    have h2 := List.append_cancel_left h
    have h3 := List.ofFn_injective h2
    funext i
    exact Fin.castLE_injective _ (congrFun h3 i)
  · simp only [emb]
    exact List.take_left wasmMagic _
  · simp only [emb]
    exact List.take_left wasmMagic _
  · simp [emb, wasmMagic]
  · simp [emb, wasmMagic]
  · simpa [F, Fin.mk.injEq] using heq

set_option maxRecDepth 4000 in
/-- C1: the claim "after inserting capacity + 1 distinct fingerprints into
an initially empty cache, the cache contains at most capacity entries" is
false for the code: the Assembly Pipeline store step
(`if cache.len() > 100 { cache.clear(); } cache.insert(..)`) clears only
when the size already strictly exceeds the capacity, so 101 distinct
fingerprints inserted into the empty cache leave 101 entries, not at most
100. -/
theorem claim_C1_counterexample :
    ¬ (((List.range 101).foldl (fun m k => cacheStore 100 m k ([] : List Byte)) []).length ≤ 100) := by
  decide

/-- C1 (amended): after every insertion `size(cache) ≤ capacity + 1` (1001
for the Transform Pipeline, 101 for the Assembly Pipeline), and inserting
`capacity + 1` distinct fingerprints into an initially empty cache leaves
exactly `capacity + 1` entries — no clear has happened yet; the wholesale
clear would fire only on the next insertion. -/
theorem claim_C1_amended :
    (∀ (m : WasmCache) (k : Nat) (v : List Byte), (cacheStore 100 m k v).length ≤ 101) ∧
    (∀ (m : TsCache) (k : Nat) (v : List Char), (cacheStore 1000 m k v).length ≤ 1001) ∧
    (∀ ks : List Nat, ks.Nodup → ks.length = 101 →
      ((ks.foldl (fun m k => cacheStore 100 m k ([] : List Byte)) []).length = 101)) := by
  refine ⟨fun m k v => cacheStore_length_le 100 m k v,
    fun m k v => cacheStore_length_le 1000 m k v, fun ks hnd hlen => ?_⟩
  have := foldStore_fresh 100 (fun _ => ([] : List Byte)) ks [] hnd
    (fun k _ => rfl) (by simp [hlen])
  simpa [hlen] using this

/-- C1 amended, witness: the 101 distinct fingerprints `0..100` inserted
into the empty Assembly Pipeline cache leave exactly 101 entries. -/
theorem claim_C1_amended_witness :
    ((List.range 101).foldl (fun m k => cacheStore 100 m k ([] : List Byte)) []).length = 101 :=
  claim_C1_amended.2.2 (List.range 101) (List.nodup_range 101) (List.length_range 101)

/-- C4: for an input whose first four bytes are the `\0asm` magic, the
Assembly Pipeline skips the text assembler entirely and cannot fail:
`compile_wat_internal` returns exactly the input bytes, and (when the
fingerprint is not already cached) `compile_wat_to_js` caches exactly those
bytes and embeds them, the snippet's byte-array literal decoding back to
exactly the input bytes. -/
theorem claim_C4 (assemble : List Byte → Except (List Char) (List Byte))
    (cache : WasmCache) (source : List Byte) (filename : List Char)
    (hmagic : source.take 4 = wasmMagic)
    (hmiss : mapLookup cache (calculate_hash source) = none) :
    compile_wat_internal assemble source filename = .ok source ∧
    compile_wat_to_js assemble cache source filename =
      (.ok (wasmJsCode source), cacheStore 100 cache (calculate_hash source) source) ∧
    decodeBytes (renderBytes source) = some source := by
  have hlen : 4 ≤ source.length := by
    have := congrArg List.length hmagic
    simp [List.length_take, wasmMagic] at this
    omega
  have hint : compile_wat_internal assemble source filename = .ok source := by
    unfold compile_wat_internal
    rw [if_pos ⟨hlen, hmagic⟩]
    rfl
  refine ⟨hint, ?_, decodeBytes_renderBytes source⟩
  simp only [compile_wat_to_js]
  rw [hmiss, hint]

/-- C4, witness: the four magic bytes alone, compiled against the empty
cache and an always-failing assembler. -/
theorem claim_C4_witness :
    compile_wat_internal refAssembleFail wasmMagic [] = .ok wasmMagic ∧
    compile_wat_to_js refAssembleFail [] wasmMagic [] =
      (.ok (wasmJsCode wasmMagic), cacheStore 100 [] (calculate_hash wasmMagic) wasmMagic) ∧
    decodeBytes (renderBytes wasmMagic) = some wasmMagic :=
  claim_C4 refAssembleFail [] wasmMagic [] rfl rfl

/-- C5: the structural-accessor injection stage is an identity transform —
for every binary it succeeds and returns the binary unchanged. -/
theorem claim_C5 : ∀ b : List Byte, inject_gc_accessors b = .ok b :=
  fun _ => rfl

/-- C6: errors are never cached and failure is atomic — whenever a pipeline
call returns a typed error, the cache is returned unchanged, and running the
identical request again (on the cache the failing call left behind) fails
with the identical error and again leaves the cache unchanged. -/
theorem claim_C6 :
    (∀ (assemble : List Byte → Except (List Char) (List Byte)) (cache : WasmCache)
      (source : List Byte) (filename : List Char) (e : WasmCompileError),
      (compile_wat_to_js assemble cache source filename).1 = .error e →
      compile_wat_to_js assemble cache source filename = (.error e, cache) ∧
      compile_wat_to_js assemble ((compile_wat_to_js assemble cache source filename).2)
        source filename = (.error e, cache)) ∧
    (∀ (ST Prog Scope : Type) (oxc : Oxc ST Prog Scope) (cache : TsCache)
      (source : List Byte) (filename : List Char) (e : TsCompileError),
      (compile_typescript_to_js oxc cache source filename).1 = .error e →
      compile_typescript_to_js oxc cache source filename = (.error e, cache) ∧
      compile_typescript_to_js oxc ((compile_typescript_to_js oxc cache source filename).2)
        source filename = (.error e, cache)) := by
  constructor
  · intro assemble cache source filename e herr
    cases hl : mapLookup cache (calculate_hash source) with
    | some b =>
      have h1 : (compile_wat_to_js assemble cache source filename).1 = .ok (wasmJsCode b) := by
        simp only [compile_wat_to_js]
        rw [hl]
      rw [h1] at herr
      exact Except.noConfusion herr
    | none =>
      cases hi : compile_wat_internal assemble source filename with
      | ok b =>
        have h1 : (compile_wat_to_js assemble cache source filename).1 = .ok (wasmJsCode b) := by
          simp only [compile_wat_to_js]
          rw [hl, hi]
        rw [h1] at herr
        exact Except.noConfusion herr
      | error e' =>
        have hres : compile_wat_to_js assemble cache source filename = (.error e', cache) := by
          simp only [compile_wat_to_js]
          rw [hl, hi]
        have he : e' = e := by
          rw [hres] at herr
          exact (Except.error.inj herr)
        subst he
        refine ⟨hres, ?_⟩
        rw [hres]
        exact hres
  · intro ST Prog Scope oxc cache source filename e herr
    cases hl : mapLookup cache (calculate_hash source) with
    | some t =>
      have h1 : (compile_typescript_to_js oxc cache source filename).1 = .ok t := by
        simp only [compile_typescript_to_js]
        rw [hl]
      rw [h1] at herr
      exact Except.noConfusion herr
    | none =>
      cases hi : compile_typescript_internal oxc source filename with
      | ok t =>
        have h1 : (compile_typescript_to_js oxc cache source filename).1 = .ok t := by
          simp only [compile_typescript_to_js]
          rw [hl, hi]
        rw [h1] at herr
        exact Except.noConfusion herr
      | error e' =>
        have hres : compile_typescript_to_js oxc cache source filename = (.error e', cache) := by
          simp only [compile_typescript_to_js]
          rw [hl, hi]
        have he : e' = e := by
          rw [hres] at herr
          exact (Except.error.inj herr)
        subst he
        refine ⟨hres, ?_⟩
        rw [hres]
        exact hres

/-- C6, witness: an unparsable one-byte text input against the
always-failing assembler, and a `:`-annotated source under the plain-script
dialect of the reference front end, both starting from empty caches. -/
theorem claim_C6_witness :
    compile_wat_to_js refAssembleFail [] [40] "f.wat".toList =
      (.error (.ParseError ("in ".toList ++ "f.wat".toList ++ ": ".toList ++ "bad syntax".toList)), []) ∧
    compile_typescript_to_js refOxc [] [58] "a.js".toList =
      (.error (.ParseError (joinSemi ["unexpected type annotation".toList])), []) :=
  ⟨(claim_C6.1 refAssembleFail [] [40] "f.wat".toList _ rfl).1,
   (claim_C6.2 Bool (List Byte) Unit refOxc [] [58] "a.js".toList _ rfl).1⟩

/-- C7: idempotence — a second identical request, run on the cache state the
first call produced, returns exactly the first call's output, for both
pipelines, whatever the starting cache. -/
theorem claim_C7 :
    (∀ (assemble : List Byte → Except (List Char) (List Byte)) (cache : WasmCache)
      (source : List Byte) (filename : List Char),
      (compile_wat_to_js assemble ((compile_wat_to_js assemble cache source filename).2)
        source filename).1 = (compile_wat_to_js assemble cache source filename).1) ∧
    (∀ (ST Prog Scope : Type) (oxc : Oxc ST Prog Scope) (cache : TsCache)
      (source : List Byte) (filename : List Char),
      (compile_typescript_to_js oxc ((compile_typescript_to_js oxc cache source filename).2)
        source filename).1 = (compile_typescript_to_js oxc cache source filename).1) := by
  constructor
  · intro assemble cache source filename
    cases hl : mapLookup cache (calculate_hash source) with
    | some b =>
      have h1 : compile_wat_to_js assemble cache source filename = (.ok (wasmJsCode b), cache) := by
        simp only [compile_wat_to_js]
        rw [hl]
      rw [h1]
      show (compile_wat_to_js assemble cache source filename).1 = .ok (wasmJsCode b)
      rw [h1]
    | none =>
      cases hi : compile_wat_internal assemble source filename with
      | error e =>
        have h1 : compile_wat_to_js assemble cache source filename = (.error e, cache) := by
          simp only [compile_wat_to_js]
          rw [hl, hi]
        rw [h1]
        show (compile_wat_to_js assemble cache source filename).1 = .error e
        rw [h1]
      | ok b =>
        have h1 : compile_wat_to_js assemble cache source filename =
            (.ok (wasmJsCode b), cacheStore 100 cache (calculate_hash source) b) := by
          simp only [compile_wat_to_js]
          rw [hl, hi]
        rw [h1]
        show (compile_wat_to_js assemble
          (cacheStore 100 cache (calculate_hash source) b) source filename).1 = .ok (wasmJsCode b)
        have h2 : mapLookup (cacheStore 100 cache (calculate_hash source) b)
            (calculate_hash source) = some b := mapLookup_mapInsert_self _ _ _
        simp only [compile_wat_to_js]
        rw [h2]
  · intro ST Prog Scope oxc cache source filename
    cases hl : mapLookup cache (calculate_hash source) with
    | some t =>
      have h1 : compile_typescript_to_js oxc cache source filename = (.ok t, cache) := by
        simp only [compile_typescript_to_js]
        rw [hl]
      rw [h1]
      show (compile_typescript_to_js oxc cache source filename).1 = .ok t
      rw [h1]
    | none =>
      cases hi : compile_typescript_internal oxc source filename with
      | error e =>
        have h1 : compile_typescript_to_js oxc cache source filename = (.error e, cache) := by
          simp only [compile_typescript_to_js]
          rw [hl, hi]
        rw [h1]
        show (compile_typescript_to_js oxc cache source filename).1 = .error e
        rw [h1]
      | ok t =>
        have h1 : compile_typescript_to_js oxc cache source filename =
            (.ok t, cacheStore 1000 cache (calculate_hash source) t) := by
          simp only [compile_typescript_to_js]
          rw [hl, hi]
        rw [h1]
        show (compile_typescript_to_js oxc
          (cacheStore 1000 cache (calculate_hash source) t) source filename).1 = .ok t
        have h2 : mapLookup (cacheStore 1000 cache (calculate_hash source) t)
            (calculate_hash source) = some t := mapLookup_mapInsert_self _ _ _
        simp only [compile_typescript_to_js]
        rw [h2]

/-- C8: every successful Assembly Pipeline result is an embedding snippet
generated afresh around the byte-array literal of some binary (the cached
one on a hit, the freshly assembled one on a miss); the literal decodes
back to exactly that binary's bytes in order, and the cache is only ever
left unchanged or extended with the binary — never with the snippet. -/
theorem claim_C8 (assemble : List Byte → Except (List Char) (List Byte))
    (cache : WasmCache) (source : List Byte) (filename : List Char) (res : List Char)
    (hok : (compile_wat_to_js assemble cache source filename).1 = .ok res) :
    ∃ binary : List Byte,
      res = wasmJsHead ++ renderBytes binary ++ wasmJsTail ∧
      decodeBytes (renderBytes binary) = some binary ∧
      ((compile_wat_to_js assemble cache source filename).2 = cache ∨
       (compile_wat_to_js assemble cache source filename).2 =
         cacheStore 100 cache (calculate_hash source) binary) := by
  cases hl : mapLookup cache (calculate_hash source) with
  | some b =>
    have h1 : compile_wat_to_js assemble cache source filename = (.ok (wasmJsCode b), cache) := by
      simp only [compile_wat_to_js]
      rw [hl]
    rw [h1] at hok
    refine ⟨b, ?_, decodeBytes_renderBytes b, Or.inl (by rw [h1])⟩
    rw [← Except.ok.inj hok]
    rfl
  | none =>
    cases hi : compile_wat_internal assemble source filename with
    | error e =>
      have h1 : (compile_wat_to_js assemble cache source filename).1 = .error e := by
        simp only [compile_wat_to_js]
        rw [hl, hi]
      rw [h1] at hok
      exact Except.noConfusion hok
    | ok b =>
      have h1 : compile_wat_to_js assemble cache source filename =
          (.ok (wasmJsCode b), cacheStore 100 cache (calculate_hash source) b) := by
        simp only [compile_wat_to_js]
        rw [hl, hi]
      rw [h1] at hok
      refine ⟨b, ?_, decodeBytes_renderBytes b, Or.inr (by rw [h1])⟩
      rw [← Except.ok.inj hok]
      rfl

/-- C8, witness: a binary-magic input on the empty cache. -/
theorem claim_C8_witness :
    ∃ binary : List Byte,
      wasmJsCode wasmMagic = wasmJsHead ++ renderBytes binary ++ wasmJsTail ∧
      decodeBytes (renderBytes binary) = some binary ∧
      ((compile_wat_to_js refAssembleFail [] wasmMagic []).2 = [] ∨
       (compile_wat_to_js refAssembleFail [] wasmMagic []).2 =
         cacheStore 100 [] (calculate_hash wasmMagic) binary) :=
  claim_C8 refAssembleFail [] wasmMagic [] (wasmJsCode wasmMagic) rfl

/-- One Assembly Pipeline operation keeps the cache within 101 entries. -/
lemma wasmStep_bound (assemble : List Byte → Except (List Char) (List Byte))
    (cache : WasmCache) (op : WasmOp) (h : cache.length ≤ 101) :
    (wasmStep assemble cache op).length ≤ 101 := by
  cases op with
  | clearOp => simp [wasmStep, wasm_clear_cache]
  | compileOp s l =>
    show ((compile_wat_to_js assemble cache s l).2).length ≤ 101
    cases hl : mapLookup cache (calculate_hash s) with
    | some b =>
      have h1 : compile_wat_to_js assemble cache s l = (.ok (wasmJsCode b), cache) := by
        simp only [compile_wat_to_js]
        rw [hl]
      rw [h1]
      exact h
    | none =>
      cases hi : compile_wat_internal assemble s l with
      | error e =>
        have h1 : compile_wat_to_js assemble cache s l = (.error e, cache) := by
          simp only [compile_wat_to_js]
          rw [hl, hi]
        rw [h1]
        exact h
      | ok b =>
        have h1 : compile_wat_to_js assemble cache s l =
            (.ok (wasmJsCode b), cacheStore 100 cache (calculate_hash s) b) := by
          simp only [compile_wat_to_js]
          rw [hl, hi]
        rw [h1]
        exact cacheStore_length_le 100 cache (calculate_hash s) b

/-- Folding Assembly Pipeline operations keeps the cache within 101 entries. -/
lemma wasmRun_bound (assemble : List Byte → Except (List Char) (List Byte)) :
    ∀ (ops : List WasmOp) (cache : WasmCache), cache.length ≤ 101 →
      (ops.foldl (wasmStep assemble) cache).length ≤ 101
  | [], _, h => h
  | op :: rest, cache, h => by
    rw [List.foldl_cons]
    exact wasmRun_bound assemble rest _ (wasmStep_bound assemble cache op h)

/-- One Transform Pipeline operation keeps the cache within 1001 entries. -/
lemma tsStep_bound {ST Prog Scope : Type} (oxc : Oxc ST Prog Scope)
    (cache : TsCache) (op : TsOp) (h : cache.length ≤ 1001) :
    (tsStep oxc cache op).length ≤ 1001 := by
  cases op with
  | clearOp => simp [tsStep, ts_clear_cache]
  | compileOp s l =>
    show ((compile_typescript_to_js oxc cache s l).2).length ≤ 1001
    cases hl : mapLookup cache (calculate_hash s) with
    | some t =>
      have h1 : compile_typescript_to_js oxc cache s l = (.ok t, cache) := by
        simp only [compile_typescript_to_js]
        rw [hl]
      rw [h1]
      exact h
    | none =>
      cases hi : compile_typescript_internal oxc s l with
      | error e =>
        have h1 : compile_typescript_to_js oxc cache s l = (.error e, cache) := by
          simp only [compile_typescript_to_js]
          rw [hl, hi]
        rw [h1]
        exact h
      | ok t =>
        have h1 : compile_typescript_to_js oxc cache s l =
            (.ok t, cacheStore 1000 cache (calculate_hash s) t) := by
          simp only [compile_typescript_to_js]
          rw [hl, hi]
        rw [h1]
        exact cacheStore_length_le 1000 cache (calculate_hash s) t

/-- Folding Transform Pipeline operations keeps the cache within 1001 entries. -/
lemma tsRun_bound {ST Prog Scope : Type} (oxc : Oxc ST Prog Scope) :
    ∀ (ops : List TsOp) (cache : TsCache), cache.length ≤ 1001 →
      (ops.foldl (tsStep oxc) cache).length ≤ 1001
  | [], _, h => h
  | op :: rest, cache, h => by
    rw [List.foldl_cons]
    exact tsRun_bound oxc rest _ (tsStep_bound oxc cache op h)

/-- C9: after any sequence of compile and clear operations from the empty
cache, the Transform Pipeline cache never exceeds 1001 entries and the
Assembly Pipeline cache never exceeds 101: the wholesale clear fires only
when the size strictly exceeds the capacity at insertion time. -/
theorem claim_C9 :
    (∀ (assemble : List Byte → Except (List Char) (List Byte)) (ops : List WasmOp),
      (wasmRun assemble ops).length ≤ 101) ∧
    (∀ (ST Prog Scope : Type) (oxc : Oxc ST Prog Scope) (ops : List TsOp),
      (tsRun oxc ops).length ≤ 1001) :=
  ⟨fun assemble ops => wasmRun_bound assemble ops [] (by simp),
   fun _ _ _ oxc ops => tsRun_bound oxc ops [] (by simp)⟩

/-- C10: an input of fewer than four bytes is never treated as binary — the
detection guard checks the length before comparing the four magic bytes,
and such an input always goes to the text-assembly branch. -/
theorem claim_C10 (assemble : List Byte → Except (List Char) (List Byte))
    (source : List Byte) (filename : List Char) (hshort : source.length < 4) :
    compile_wat_internal assemble source filename = assembleText assemble source filename := by
  unfold compile_wat_internal
  rw [if_neg (fun hc => absurd hc.1 (by omega))]

/-- C10, witness: the one-byte input `(`. -/
theorem claim_C10_witness :
    compile_wat_internal refAssembleFail [40] "f.wat".toList =
      assembleText refAssembleFail [40] "f.wat".toList :=
  claim_C10 refAssembleFail [40] "f.wat".toList (by decide)

/-- C2: the claim "caching never changes the output, for any prior cache
contents produced by earlier compile calls" is false: the fingerprint is a
64-bit digest of unboundedly many sources, so two distinct binary-magic
inputs share a fingerprint (pigeonhole over 2^70 ASCII-suffixed inputs);
compiling the first populates the cache, and the second then returns the
first input's embedding snippet instead of its own. -/
theorem claim_C2_counterexample :
    ¬ ((∀ (assemble : List Byte → Except (List Char) (List Byte)) (cache : WasmCache)
          (source : List Byte) (filename : List Char),
          wasmReachable assemble cache →
          (compile_wat_to_js assemble cache source filename).1 =
            compile_wat_nocache assemble source filename) ∧
        (∀ (ST Prog Scope : Type) (oxc : Oxc ST Prog Scope) (cache : TsCache)
          (source : List Byte) (filename : List Char),
          tsReachable oxc cache →
          (compile_typescript_to_js oxc cache source filename).1 =
            compile_typescript_nocache oxc source filename)) := by
  rintro ⟨hw, -⟩
  obtain ⟨s1, s2, hne, ht1, ht2, hl1, hl2, hh⟩ := hash_collision_on_magic
  have hint1 : compile_wat_internal refAssembleFail s1 [] = .ok s1 := by
    unfold compile_wat_internal
    rw [if_pos ⟨by omega, ht1⟩]
    rfl
  have hc1 : (compile_wat_to_js refAssembleFail [] s1 []).2 = [(calculate_hash s1, s1)] := by
    simp only [compile_wat_to_js]
    rw [show mapLookup ([] : WasmCache) (calculate_hash s1) = none from rfl, hint1]
    rfl
  have hreach : wasmReachable refAssembleFail [(calculate_hash s1, s1)] :=
    ⟨[(s1, [])], by
      simp only [List.foldl_cons, List.foldl_nil]
      exact hc1.symm⟩
  have h2 := hw refAssembleFail [(calculate_hash s1, s1)] s2 [] hreach
  have hlhs : (compile_wat_to_js refAssembleFail [(calculate_hash s1, s1)] s2 []).1 =
      .ok (wasmJsCode s1) := by
    simp only [compile_wat_to_js]
    rw [show mapLookup [(calculate_hash s1, s1)] (calculate_hash s2) = some s1 from by
      simp [mapLookup, hh]]
  have hint2 : compile_wat_internal refAssembleFail s2 [] = .ok s2 := by
    unfold compile_wat_internal
    rw [if_pos ⟨by omega, ht2⟩]
    rfl
  have hrhs : compile_wat_nocache refAssembleFail s2 [] = .ok (wasmJsCode s2) := by
    unfold compile_wat_nocache
    rw [hint2]
  rw [hlhs, hrhs] at h2
  exact hne (wasmJsCode_injective (Except.ok.inj h2))

/-- C2 (amended): cache transparency holds exactly when the entry sitting
at the request's fingerprint (if any) is the output that compiling the
request would produce — in particular whenever no distinct source colliding
on the fingerprint was compiled earlier.  A 64-bit fingerprint collision
between distinct sources is the only way caching can change an output. -/
theorem claim_C2_amended :
    (∀ (assemble : List Byte → Except (List Char) (List Byte)) (cache : WasmCache)
      (source : List Byte) (filename : List Char),
      (∀ b, mapLookup cache (calculate_hash source) = some b →
        compile_wat_internal assemble source filename = .ok b) →
      (compile_wat_to_js assemble cache source filename).1 =
        compile_wat_nocache assemble source filename) ∧
    (∀ (ST Prog Scope : Type) (oxc : Oxc ST Prog Scope) (cache : TsCache)
      (source : List Byte) (filename : List Char),
      (∀ t, mapLookup cache (calculate_hash source) = some t →
        compile_typescript_internal oxc source filename = .ok t) →
      (compile_typescript_to_js oxc cache source filename).1 =
        compile_typescript_nocache oxc source filename) := by
  constructor
  · intro assemble cache source filename hcoh
    cases hl : mapLookup cache (calculate_hash source) with
    | some b =>
      have h1 : (compile_wat_to_js assemble cache source filename).1 = .ok (wasmJsCode b) := by
        simp only [compile_wat_to_js]
        rw [hl]
      rw [h1]
      unfold compile_wat_nocache
      rw [hcoh b hl]
    | none =>
      simp only [compile_wat_to_js, compile_wat_nocache]
      rw [hl]
      cases hi : compile_wat_internal assemble source filename <;> rfl
  · intro ST Prog Scope oxc cache source filename hcoh
    cases hl : mapLookup cache (calculate_hash source) with
    | some t =>
      have h1 : (compile_typescript_to_js oxc cache source filename).1 = .ok t := by
        simp only [compile_typescript_to_js]
        rw [hl]
      rw [h1]
      unfold compile_typescript_nocache
      rw [hcoh t hl]
    | none =>
      simp only [compile_typescript_to_js, compile_typescript_nocache]
      rw [hl]
      cases hi : compile_typescript_internal oxc source filename <;> rfl

/-- C2 amended, witness: compiling against empty caches (trivially
collision-free) agrees with the cache-disabled result. -/
theorem claim_C2_amended_witness :
    (compile_wat_to_js refAssembleFail [] wasmMagic []).1 =
      compile_wat_nocache refAssembleFail wasmMagic [] ∧
    (compile_typescript_to_js refOxc [] [97] []).1 =
      compile_typescript_nocache refOxc [97] [] :=
  ⟨claim_C2_amended.1 refAssembleFail [] wasmMagic [] (fun _ h => nomatch h),
   claim_C2_amended.2 Bool (List Byte) Unit refOxc [] [97] [] (fun _ h => nomatch h)⟩

/-- C3: the claim "labels never change a success output" is false: the code
derives the parser's `SourceType` from the label's extension, so a source
that the typed dialect accepts and the plain dialect rejects compiles under
label `a.ts` but errors under label `a.js` — the label is semantically
interpreted, exactly as §4.2 step 2 of the spec says. -/
theorem claim_C3_counterexample :
    ¬ (∀ (ST Prog Scope : Type) (oxc : Oxc ST Prog Scope) (source : List Byte)
        (l1 l2 : List Char) (o : List Char),
        (compile_typescript_to_js oxc [] source l1).1 = .ok o →
        (compile_typescript_to_js oxc [] source l2).1 = .ok o) := by
  intro h
  have h1 : (compile_typescript_to_js refOxc [] [97, 58, 49] "a.ts".toList).1 =
      .ok ['a', '1'] := rfl
  have h2 := h Bool (List Byte) Unit refOxc [97, 58, 49] "a.ts".toList "a.js".toList
    ['a', '1'] h1
  have h3 : (compile_typescript_to_js refOxc [] [97, 58, 49] "a.js".toList).1 =
      .error (.ParseError (joinSemi ["unexpected type annotation".toList])) := rfl
  rw [h3] at h2
  exact Except.noConfusion h2

/-- C3 (amended): the label reaches the compilation only through the
dialect chosen by `SourceType::from_path` and through the path handed to
the transformer; two labels that select the same dialect and on which the
transformer behaves alike always produce identical results — and the label
never enters the fingerprint, so both share one cache entry. -/
theorem claim_C3_amended :
    ∀ (ST Prog Scope : Type) (oxc : Oxc ST Prog Scope) (cache : TsCache) (source : List Byte)
      (l1 l2 : List Char),
      oxc.sourceTypeFromPath l1 = oxc.sourceTypeFromPath l2 →
      (∀ sc p, oxc.transform l1 sc p = oxc.transform l2 sc p) →
      (compile_typescript_to_js oxc cache source l1).1 =
        (compile_typescript_to_js oxc cache source l2).1 := by
  intro ST Prog Scope oxc cache source l1 l2 hst htr
  have hint : compile_typescript_internal oxc source l1 =
      compile_typescript_internal oxc source l2 := by
    simp only [compile_typescript_internal]
    rw [hst, htr]
  cases hl : mapLookup cache (calculate_hash source) with
  | some t =>
    simp only [compile_typescript_to_js]
    rw [hl]
  | none =>
    simp only [compile_typescript_to_js]
    rw [hl, hint]

/-- C3 amended, witness: two distinct `.ts` labels with the dialect-blind
reference transformer give identical results on an annotated source. -/
theorem claim_C3_amended_witness :
    (compile_typescript_to_js refOxc [] [97, 58, 49] "a.ts".toList).1 =
      (compile_typescript_to_js refOxc [] [97, 58, 49] "b.ts".toList).1 :=
  claim_C3_amended Bool (List Byte) Unit refOxc [] [97, 58, 49] "a.ts".toList "b.ts".toList
    (by decide) (fun _ _ => rfl)
